import Mathlib

/-!
# Rescheduler: interaction handler and Slack listener

A shallow embedding of `handler.go` and `slack.go`.

* Go strings are Lean strings; `strings.Split` and `strings.SplitN` are
  embedded for a one-character separator (the code only ever splits at `,`).
* `time.Time` is an instant (seconds and nanoseconds since the Unix epoch)
  together with a location; a location is a fixed offset east of UTC, so
  `time.Local` is a parameter of the runtime and daylight-saving transitions
  are outside the model.  Calendar fields follow the proleptic Gregorian
  calendar, as in Go.
* Text formatting and parsing of times (`Time.Format`, `time.Parse`) and the
  floating-point formatting of a duration in minutes are parameters of the
  runtime.
* The Garoon client is an in-memory store of events plus oracles for the
  read-only queries; every `PostMessage` call on the Slack client is
  recorded (a failed delivery is only logged by the program).
* A Go run-time panic (index out of range) is the result `none`.
* Log output is not modelled.
-/

namespace Rescheduler

/-! ## Package `strings` -/

namespace strings

/-- Pieces of a character list around every occurrence of `sep`. -/
def splitChars (sep : Char) : List Char → List (List Char)
  | [] => [[]]
  | c :: cs =>
    if c = sep then [] :: splitChars sep cs
    else
      match splitChars sep cs with
      | [] => [[c]]
      | w :: ws => (c :: w) :: ws

/-- Pieces of a character list around the first `n - 1` occurrences of `sep`
(`n = 0` gives no piece at all). -/
def splitNChars (sep : Char) : Nat → List Char → List (List Char)
  | 0, _ => []
  | 1, cs => [cs]
  | _ + 2, [] => [[]]
  | n + 2, c :: cs =>
    if c = sep then [] :: splitNChars sep (n + 1) cs
    else
      match splitNChars sep (n + 2) cs with
      | [] => [[c]]
      | w :: ws => (c :: w) :: ws

/-- Go `strings.Split(s, sep)` for a one-character separator. -/
def Split (s : String) (sep : Char) : List String :=
  (splitChars sep s.toList).map String.mk

/-- Go `strings.SplitN(s, sep, n)` for a one-character separator and `n ≥ 0`. -/
def SplitN (s : String) (sep : Char) (n : Nat) : List String :=
  (splitNChars sep n s.toList).map String.mk

/-- Go `a < b` on strings: lexical order (code points, which for UTF-8 is the
order of the bytes). -/
def Less (a b : String) : Prop :=
  a.toList.map Char.toNat < b.toList.map Char.toNat

/-- Go `a <= b` on strings. -/
def LessEq (a b : String) : Prop :=
  a.toList.map Char.toNat ≤ b.toList.map Char.toNat

instance (a b : String) : Decidable (Less a b) :=
  inferInstanceAs (Decidable (a.toList.map Char.toNat < b.toList.map Char.toNat))

instance (a b : String) : Decidable (LessEq a b) :=
  inferInstanceAs (Decidable (a.toList.map Char.toNat ≤ b.toList.map Char.toNat))

end strings

/-! ## Package `time` -/

namespace time

/-- Days since 1970-01-01 of the civil date `y-m-d` (proleptic Gregorian),
for a month in `1..12`; linear in `d`, so a day outside the month carries
over as Go normalises it. -/
def daysFromCivil (y m d : Int) : Int :=
  let y1 := if m ≤ 2 then y - 1 else y
  let era := y1 / 400
  let yoe := y1 - era * 400
  let mp := if m > 2 then m - 3 else m + 9
  let doy := (153 * mp + 2) / 5 + d - 1
  let doe := yoe * 365 + yoe / 4 - yoe / 100 + doy
  era * 146097 + doe - 719468

/-- Civil date `(year, month, day)` of a day number since 1970-01-01. -/
def civilFromDays (z : Int) : Int × Int × Int :=
  let z1 := z + 719468
  let era := z1 / 146097
  let doe := z1 - era * 146097
  let yoe := (doe - doe / 1460 + doe / 36524 - doe / 146096) / 365
  let y := yoe + era * 400
  let doy := doe - (365 * yoe + yoe / 4 - yoe / 100)
  let mp := (5 * doy + 2) / 153
  let d := doy - (153 * mp + 2) / 5 + 1
  let m := if mp < 10 then mp + 3 else mp - 9
  (if m ≤ 2 then y + 1 else y, m, d)

/-- Go `time.Time`: an instant and a location (fixed offset, seconds east of
UTC). -/
structure Time where
  sec : Int
  nsec : Fin 1000000000
  off : Int
  deriving DecidableEq, Repr

/-- The zero value `time.Time{}`: January 1, year 1, 00:00:00 UTC. -/
def zero : Time := { sec := -62135596800, nsec := 0, off := 0 }

namespace Time

/-- Seconds since the epoch on the wall clock of the location of `t`. -/
def abs (t : Time) : Int := t.sec + t.off

/-- Day number (since 1970-01-01) of the civil date of `t` in its location. -/
def days (t : Time) : Int := t.abs / 86400

/-- Go `t.Weekday()`: Sunday = 0, ..., Saturday = 6. -/
def Weekday (t : Time) : Int := (t.days + 4) % 7

/-- Go `t.Year()`. -/
def Year (t : Time) : Int := (civilFromDays t.days).1

/-- Go `t.Month()`: January = 1. -/
def Month (t : Time) : Int := (civilFromDays t.days).2.1

/-- Go `t.Day()`. -/
def Day (t : Time) : Int := (civilFromDays t.days).2.2

/-- Go `t.Hour()`. -/
def Hour (t : Time) : Int := t.abs % 86400 / 3600

/-- Go `t.Minute()`. -/
def Minute (t : Time) : Int := t.abs % 3600 / 60

/-- Go `t.Second()`. -/
def Second (t : Time) : Int := t.abs % 60

/-- Go `t.Before(u)`: comparison of instants. -/
def Before (t u : Time) : Prop := t.sec < u.sec ∨ (t.sec = u.sec ∧ t.nsec < u.nsec)

/-- Go `t.After(u)`. -/
def After (t u : Time) : Prop := t.sec > u.sec ∨ (t.sec = u.sec ∧ t.nsec > u.nsec)

/-- Go `t.Equal(u)`: same instant, whatever the locations. -/
def Equal (t u : Time) : Prop := t.sec = u.sec ∧ t.nsec = u.nsec

instance (t u : Time) : Decidable (t.Before u) :=
  inferInstanceAs (Decidable (t.sec < u.sec ∨ (t.sec = u.sec ∧ t.nsec < u.nsec)))

instance (t u : Time) : Decidable (t.After u) :=
  inferInstanceAs (Decidable (t.sec > u.sec ∨ (t.sec = u.sec ∧ t.nsec > u.nsec)))

instance (t u : Time) : Decidable (t.Equal u) :=
  inferInstanceAs (Decidable (t.sec = u.sec ∧ t.nsec = u.nsec))

/-- Go `t.Sub(u)`: the duration in nanoseconds, saturating at the bounds of
`int64`. -/
def Sub (t u : Time) : Int :=
  let d := (t.sec - u.sec) * 1000000000 + ((t.nsec.val : Int) - (u.nsec.val : Int))
  if d > 9223372036854775807 then 9223372036854775807
  else if d < -9223372036854775808 then -9223372036854775808
  else d

end Time

/-- Go `time.Date(year, month, day, hour, min, sec, nsec, loc)`.  The month
is normalised into `1..12` with a carry into the year; day, hour, minute,
second and nanosecond overflow carry over linearly. -/
def Date (year month day hour min sec nsec : Int) (loc : Int) : Time :=
  let m0 := month - 1
  let y := year + m0 / 12
  let m := m0 % 12 + 1
  let s := sec + nsec / 1000000000
  { sec := daysFromCivil y m day * 86400 + hour * 3600 + min * 60 + s - loc
    nsec := ⟨(nsec % 1000000000).toNat, by omega⟩
    off := loc }

/-- Go `t.AddDate(years, months, days)`. -/
def Time.AddDate (t : Time) (years months days : Int) : Time :=
  Date (t.Year + years) (t.Month + months) (t.Day + days)
    t.Hour t.Minute t.Second (t.nsec.val : Int) t.off

end time

/-! ## Package `garoon` (groupware client) -/

namespace garoon

/-- Go `garoon.Time`. -/
structure Time where
  DateTime : time.Time
  TimeZone : String
  deriving DecidableEq, Repr

/-- Go `garoon.Facility`: a meeting room. -/
structure Facility where
  ID : String
  Code : String
  Name : String
  FacilityGroup : String
  deriving DecidableEq, Repr

/-- Go `garoon.Attendee`. -/
structure Attendee where
  ID : String
  Code : String
  Name : String
  Type_ : String
  deriving DecidableEq, Repr

/-- Go `garoon.Event`: a meeting. -/
structure Event where
  ID : String
  Subject : String
  Start : Time
  End : Time
  IsAllDay : Bool
  IsStartOnly : Bool
  Attendees : List Attendee
  Facilities : List Facility
  deriving DecidableEq, Repr

/-- Go `garoon.EventPager`. -/
structure EventPager where
  Events : List Event
  deriving DecidableEq, Repr

/-- Go `garoon.DateTimePeriod`: one search window. -/
structure DateTimePeriod where
  Start : time.Time
  End : time.Time
  deriving DecidableEq, Repr

/-- Go `garoon.AvailableTime`: one free slot. -/
structure AvailableTime where
  Start : Time
  End : Time
  Facility : Facility
  deriving DecidableEq, Repr

/-- Go `garoon.AvailableTimeParameter`: one availability query. -/
structure AvailableTimeParameter where
  TimeRanges : List DateTimePeriod
  TimeInterval : String
  Attendees : List Attendee
  Facilities : List Facility
  FacilitySearchCondition : String
  deriving DecidableEq, Repr

/-- Modelled from the spec: the groupware backend behind `garoon.Client`
(find event by ID, update event, list rooms, rooms in a group, search
available slots).  The meetings are an in-memory store; an update may be
rejected by the backend; the read-only queries are oracles. -/
structure Client where
  events : List Event
  rejectsUpdate : Event → Bool
  facilitiesByName : String → Except String (List Facility)
  facilitiesByGroup : String → Except String (List Facility)
  availableTimes : AvailableTimeParameter → Except String (List AvailableTime)

namespace Client

/-- Go `c.FindEvent(id)`. -/
def FindEvent (c : Client) (id : String) : Except String Event :=
  match c.events.find? (fun e => e.ID = id) with
  | some e => .ok e
  | none => .error "event not found"

/-- Go `c.UpdateEvent(ev)`: full overwrite of the stored meeting with the ID
of `ev`; the result is the backend after the call. -/
def UpdateEvent (c : Client) (ev : Event) : Except String Client :=
  if c.rejectsUpdate ev then .error "update rejected"
  else if c.events.any (fun e => e.ID = ev.ID) then
    .ok { c with events := c.events.map (fun e => if e.ID = ev.ID then ev else e) }
  else .error "event not found"

/-- Go `c.GetFacilities(v)` with the single query value `name`. -/
def GetFacilities (c : Client) (name : String) : Except String (List Facility) :=
  c.facilitiesByName name

/-- Go `c.GetFacilitiesByFacilityGroup(id, v)` with no query value. -/
def GetFacilitiesByFacilityGroup (c : Client) (id : String) :
    Except String (List Facility) :=
  c.facilitiesByGroup id

/-- Go `c.SearchAvailableTimes(&param)`. -/
def SearchAvailableTimes (c : Client) (param : AvailableTimeParameter) :
    Except String (List AvailableTime) :=
  c.availableTimes param

end Client

end garoon

/-! ## Package `slack` (chat client) -/

namespace slack

/-- Go `slack.AttachmentActionOption`. -/
structure AttachmentActionOption where
  Text : String
  Value : String
  deriving DecidableEq, Repr

/-- Go `slack.AttachmentAction`: a menu or a button. -/
structure AttachmentAction where
  Name : String
  Text : String
  Style : String
  Type_ : String
  Options : List AttachmentActionOption
  SelectedOptions : List AttachmentActionOption
  deriving DecidableEq, Repr

/-- Go `slack.AttachmentField`. -/
structure AttachmentField where
  Title : String
  Value : String
  Short : Bool
  deriving DecidableEq, Repr

/-- Go `slack.Attachment` (the fields this program reads or writes). -/
structure Attachment where
  Color : String
  CallbackID : String
  Title : String
  Text : String
  Fields : List AttachmentField
  Actions : List AttachmentAction
  deriving DecidableEq, Repr

/-- The zero value `slack.Attachment{}`. -/
def Attachment.empty : Attachment :=
  { Color := "", CallbackID := "", Title := "", Text := "", Fields := [], Actions := [] }

/-- The zero value `slack.AttachmentAction{}`. -/
def AttachmentAction.empty : AttachmentAction :=
  { Name := "", Text := "", Style := "", Type_ := "", Options := [], SelectedOptions := [] }

/-- Go `slack.Message`. -/
structure Message where
  Text : String
  Attachments : List Attachment
  ReplaceOriginal : Bool
  ResponseType : String
  deriving DecidableEq, Repr

/-- Go `slack.User` (ID and name). -/
structure User where
  ID : String
  Name : String
  deriving DecidableEq, Repr

/-- Go `slack.Channel` (ID). -/
structure Channel where
  ID : String
  deriving DecidableEq, Repr

/-- Go `slack.AttachmentActionCallback`: the decoded interactive callback. -/
structure AttachmentActionCallback where
  Actions : List AttachmentAction
  Token : String
  User : User
  Channel : Channel
  OriginalMessage : Message
  deriving DecidableEq, Repr

/-- One recorded call `PostMessage(channel, "", params)`. -/
structure Post where
  Channel : String
  Attachments : List Attachment
  deriving DecidableEq, Repr

end slack

/-! ## Package `sort` -/

namespace sort

/-- One pass of the inner loop of the insertion sort: `x` is swapped leftwards
while it is `less` than its left neighbour.  The sorted part is held
nearest-neighbour first. -/
def insertBack {α : Type} (less : α → α → Bool) (x : α) : List α → List α
  | [] => [x]
  | y :: ys => if less x y then y :: insertBack less x ys else x :: y :: ys

/-- Go `sort.Sort(data)` for data with the given `Less`, as the insertion sort
of the library. -/
def Sort_ {α : Type} (less : α → α → Bool) (data : List α) : List α :=
  (data.foldl (fun sorted x => insertBack less x sorted) []).reverse

end sort

/-- What the program takes from its surroundings: the clock, the local time
zone and the text conversions of package `time` and `fmt`. -/
structure Runtime where
  nowSec : Int
  nowNsec : Fin 1000000000
  Local : Int
  Format : time.Time → String → String
  Parse : String → String → Option time.Time
  FormatMinutes : Int → String

/-- Go `time.Now()`: the current instant, in the local zone. -/
def Runtime.Now (rt : Runtime) : time.Time :=
  { sec := rt.nowSec, nsec := rt.nowNsec, off := rt.Local }

/-- Go `time.Parse(layout, value)` with the error dropped: the zero time on
failure. -/
def Runtime.ParseOrZero (rt : Runtime) (layout value : String) : time.Time :=
  (rt.Parse layout value).getD time.zero

/-! ## `slack.go` -/

/-- Action name of the target-selection menu. -/
def actionSelectTarget : String := "selectTarget"

/-- Action name of the time-selection menu. -/
def actionSelectTime : String := "selectTime"

/-- Action name of the cancel button. -/
def actionCancel : String := "cancel"

/-- Go `SlackListener.setupAttachment`: the target-selection menu for the
meetings found by a keyword search. -/
def SlackListener.setupAttachment (rt : Runtime) (pager : garoon.EventPager) :
    slack.Attachment :=
  let layout := "2006-01-02 15:04"
  let options : List slack.AttachmentActionOption :=
    pager.Events.map fun ev =>
      { Text := rt.Format ev.Start.DateTime layout ++ " " ++ ev.Subject
        Value := ev.ID }
  { Title := "Which schedule do you intend? :calendar:"
    Color := "#32cd32"
    CallbackID := "target"
    Text := ""
    Fields := []
    Actions :=
      [ { slack.AttachmentAction.empty with
            Name := actionSelectTarget, Type_ := "select", Options := options },
        { slack.AttachmentAction.empty with
            Name := actionCancel, Text := "Cancel", Type_ := "button", Style := "danger" } ] }

/-! ## `handler.go` -/

/-- Go `interactionHandler` (the Slack client only receives the recorded
posts and has no field here). -/
structure interactionHandler where
  ownerSlackID : String
  garoonClient : garoon.Client
  garoonExcludingFacilityCode : String
  verificationToken : String

/-- Go `AvailableTimes.Less`, on two elements of the slice. -/
def AvailableTimes.Less (a b : garoon.AvailableTime) : Bool :=
  if a.Start.DateTime.Equal b.Start.DateTime then
    decide (strings.Less a.Facility.Code b.Facility.Code)
  else
    decide (a.Start.DateTime.Before b.Start.DateTime)

namespace interactionHandler

/-- One turn of the loop of `buildTimeRanges`, for the day `i` days after the
end of the meeting: `none` where the loop continues without a window. -/
def timeRangeAt (rt : Runtime) (end_ : time.Time) (i : Nat) : Option garoon.DateTimePeriod :=
  let d := end_.AddDate 0 0 i
  if d.Weekday = 0 ∨ d.Weekday = 6 then none
  else
    let period (startHour : Int) : garoon.DateTimePeriod :=
      { Start := time.Date d.Year d.Month d.Day startHour 0 0 0 rt.Local
        End := time.Date d.Year d.Month d.Day 19 0 0 0 rt.Local }
    if i = 0 then
      let hour := rt.Now.Hour
      if hour ≥ 19 then none
      else if hour > 10 then some (period hour)
      else some (period 10)
    else some (period 10)

/-- Go `buildTimeRanges`: the business-hour windows of the eight days from the
end of the meeting (`i = 0, ..., 7`). -/
def buildTimeRanges (_h : interactionHandler) (rt : Runtime) (ev : garoon.Event) :
    Except String (List garoon.DateTimePeriod) :=
  .ok ((List.range 8).filterMap (timeRangeAt rt ev.End.DateTime))

/-- Go `getFacilitiesFromOwnFacilityGroup`: the rooms of the facility group
of the first assigned room, without the excluded codes. -/
def getFacilitiesFromOwnFacilityGroup (h : interactionHandler)
    (facilities : List garoon.Facility) : Except String (List garoon.Facility) :=
  match facilities with
  | [] => .ok []
  | f0 :: _ =>
    match h.garoonClient.GetFacilities f0.Name with
    | .error e => .error e
    | .ok [] => .error "target facilities not found."
    | .ok (g0 :: _) =>
      match h.garoonClient.GetFacilitiesByFacilityGroup g0.FacilityGroup with
      | .error _ => .error "facilities in the facility group not found."
      | .ok fs =>
        let codes := strings.Split h.garoonExcludingFacilityCode ','
        .ok (fs.filter fun f => !(codes.any fun code => f.Code = code))

/-- Go `buildAvailableTimeParameters`: one query per window. -/
def buildAvailableTimeParameters (h : interactionHandler) (rt : Runtime)
    (ev : garoon.Event) (facilities : List garoon.Facility) :
    Except String (List garoon.AvailableTimeParameter) :=
  match h.buildTimeRanges rt ev with
  | .error e => .error e
  | .ok ranges =>
    let interval := ev.End.DateTime.Sub ev.Start.DateTime
    .ok (ranges.map fun r =>
      { TimeRanges := [r]
        TimeInterval := rt.FormatMinutes interval
        Attendees := ev.Attendees
        Facilities := facilities
        FacilitySearchCondition := "OR" })

/-- The query loop of `searchAvailableTimes`: the results are appended in the
order of the windows, and the first failing query aborts the search. -/
def collectAvailableTimes (c : garoon.Client) :
    List garoon.AvailableTimeParameter → List garoon.AvailableTime →
    Except String (List garoon.AvailableTime)
  | [], availableTimes => .ok availableTimes
  | param :: params, availableTimes =>
    match c.SearchAvailableTimes param with
    | .error e => .error e
    | .ok pager => collectAvailableTimes c params (availableTimes ++ pager)

/-- Go `searchAvailableTimes`. -/
def searchAvailableTimes (h : interactionHandler) (rt : Runtime) (ev : garoon.Event) :
    Except String (List garoon.AvailableTime) :=
  match h.getFacilitiesFromOwnFacilityGroup ev.Facilities with
  | .error e => .error e
  | .ok facilities =>
    match h.buildAvailableTimeParameters rt ev facilities with
    | .error e => .error e
    | .ok params =>
      match collectAvailableTimes h.garoonClient params [] with
      | .error e => .error e
      | .ok availableTimes => .ok (sort.Sort_ AvailableTimes.Less availableTimes)

/-- Go `interactionHandler.setupAttachment`: the attachment after the call and
the error returned. -/
def setupAttachment (h : interactionHandler) (rt : Runtime) (messageUserID : String)
    (ev : garoon.Event) (attachment : slack.Attachment) :
    slack.Attachment × Option String :=
  if ev.IsAllDay || ev.IsStartOnly then
    ({ attachment with Title := "No end MTG does not supported." }, none)
  else if ev.Facilities.length > 1 then
    ({ attachment with Title := "Multiple MTG rooms does not supported." }, none)
  else
    match h.searchAvailableTimes rt ev with
    | .error e => (attachment, some e)
    | .ok availableTimes =>
      if availableTimes.length = 0 then
        ({ attachment with Title := "Could not find a date to reschedule." }, none)
      else
        let layoutForRead := "2006-01-02 15:04"
        let layoutForValue := "2006-01-02T15:04:05-07:00"
        let text := availableTimes.foldl (fun text t =>
          text ++ rt.Format t.Start.DateTime layoutForRead ++ " " ++ t.Facility.Name ++ "\n") ""
        let options : List slack.AttachmentActionOption := availableTimes.map fun t =>
          { Text := rt.Format t.Start.DateTime layoutForRead ++ " " ++ t.Facility.Name
            Value := ev.ID ++ "," ++ rt.Format t.Start.DateTime layoutForValue ++ "," ++
              rt.Format t.End.DateTime layoutForValue ++ "," ++ t.Facility.ID }
        let attachment := { attachment with Text := text }
        if messageUserID ≠ h.ownerSlackID then
          ({ attachment with
              Title := toString availableTimes.length ++ " schedules found." }, none)
        else
          ({ attachment with
              Title := "Which shedule would you like?"
              Actions :=
                [ { slack.AttachmentAction.empty with
                      Name := actionSelectTime, Type_ := "select", Options := options },
                  { slack.AttachmentAction.empty with
                      Name := actionCancel, Text := "Cancel", Type_ := "button",
                      Style := "danger" } ] }, none)

/-- Go `updateEvent`: the backend after a successful update, or the error. -/
def updateEvent (h : interactionHandler) (rt : Runtime)
    (eventID start end_ facilityID : String) : Except String garoon.Client :=
  match h.garoonClient.FindEvent eventID with
  | .error _ => .error "failed to find the event."
  | .ok ev =>
    let layout := "2006-01-02T15:04:05-07:00"
    let ev := { ev with Start := { ev.Start with DateTime := rt.ParseOrZero layout start } }
    let ev := { ev with End := { ev.End with DateTime := rt.ParseOrZero layout end_ } }
    let ev := { ev with
      Facilities := [ { ID := facilityID, Code := "", Name := "", FacilityGroup := "" } ] }
    match h.garoonClient.UpdateEvent ev with
    | .error _ => .error "failed to update the event."
    | .ok c => .ok c

/-- What `asyncResponse` leaves behind: the backend and the `PostMessage`
calls made. -/
structure AsyncResult where
  garoon : garoon.Client
  posted : List slack.Post

/-- Go `asyncResponse`, the work done after the acknowledgment. -/
def asyncResponse (h : interactionHandler) (rt : Runtime)
    (message : slack.AttachmentActionCallback) : Option AsyncResult :=
  match message.OriginalMessage.Attachments with
  | [] => some { garoon := h.garoonClient, posted := [] }
  | attachment0 :: _ =>
    let attachment : slack.Attachment :=
      { attachment0 with Title := "", Text := "", Fields := [], Actions := [] }
    let post (c : garoon.Client) (attachment : slack.Attachment) : Option AsyncResult :=
      some { garoon := c
             posted := [ { Channel := message.Channel.ID, Attachments := [attachment] } ] }
    match message.Actions with
    | [] => none
    | action :: _ =>
      if action.Name = actionSelectTarget then
        match action.SelectedOptions with
        | [] => none
        | selected :: _ =>
          match (strings.SplitN selected.Value ',' 2)[0]? with
          | none => none
          | some eventID =>
            match h.garoonClient.FindEvent eventID with
            | .error _ => some { garoon := h.garoonClient, posted := [] }
            | .ok ev =>
              match h.setupAttachment rt message.User.ID ev attachment with
              | (_, some _) => some { garoon := h.garoonClient, posted := [] }
              | (attachment, none) => post h.garoonClient attachment
      else if action.Name = actionSelectTime then
        if message.User.ID ≠ h.ownerSlackID then
          post h.garoonClient { attachment with Title := ":x: You are not permitted." }
        else
          match action.SelectedOptions with
          | [] => none
          | selected :: _ =>
            let s := strings.Split selected.Value ','
            match s[0]?, s[1]?, s[2]?, s[3]? with
            | some s0, some s1, some s2, some s3 =>
              match h.updateEvent rt s0 s1 s2 s3 with
              | .error _ => some { garoon := h.garoonClient, posted := [] }
              | .ok c =>
                post c { attachment with
                  Title := "The schedule has been rescheduled! :white_check_mark:" }
            | _, _, _, _ => none
      else if action.Name = actionCancel then
        post h.garoonClient { attachment with Title := "@" ++ message.User.Name ++ " canceled." }
      else some { garoon := h.garoonClient, posted := [] }

/-- Go `responseMessage`: the JSON body written with status 200, the original
message with the controls of its first attachment removed. -/
def responseMessage (original : slack.Message) (text _value : String) : slack.Message :=
  match original.Attachments with
  | [] => { original with
      Attachments := [ { slack.Attachment.empty with Actions := [], Text := text } ] }
  | a :: rest => { original with
      Attachments := { a with Actions := [], Text := text } :: rest }

/-- The request body as `ServeHTTP` meets it: unreadable, shorter than the
8-byte marker, not URL-escaped, not JSON, or a decoded callback. -/
inductive Body where
  | unreadable
  | tooShort
  | badEscape
  | badJSON
  | payload (message : slack.AttachmentActionCallback)

/-- The HTTP request, as far as `ServeHTTP` reads it. -/
structure Request where
  Method : String
  Body : Body

/-- What `ServeHTTP` does with a request: the status it writes (if any), the
body it writes (if any), and the callback handed to the `asyncResponse`
goroutine (if one is started). -/
structure Served where
  status : Option Nat
  body : Option slack.Message
  async : Option slack.AttachmentActionCallback
  deriving DecidableEq, Repr

/-- Go `ServeHTTP`. -/
def ServeHTTP (h : interactionHandler) (rt : Runtime) (r : Request) : Option Served :=
  let reject (code : Nat) : Option Served :=
    some { status := some code, body := none, async := none }
  if r.Method ≠ "POST" then reject 405
  else
    match r.Body with
    | .unreadable => reject 500
    | .tooShort => none
    | .badEscape => reject 500
    | .badJSON => reject 500
    | .payload message =>
      if message.Token ≠ h.verificationToken then reject 401
      else
        let message := { message with
          OriginalMessage := { message.OriginalMessage with
            ReplaceOriginal := true, ResponseType := "in_channel" } }
        let respond (text : String) : Option Served :=
          let body := responseMessage message.OriginalMessage text ""
          -- the first attachment is shared with the copy that was written to
          let shared := match message.OriginalMessage.Attachments with
            | [] => []
            | _ :: _ => body.Attachments
          some { status := some 200
                 body := some body
                 async := some { message with
                   OriginalMessage := { message.OriginalMessage with Attachments := shared } } }
        match message.Actions with
        | [] => none
        | action :: _ =>
          if action.Name = actionSelectTarget then
            match action.SelectedOptions with
            | [] => none
            | selected :: _ =>
              match (strings.SplitN selected.Value ',' 2)[1]? with
              | none => none
              | some subject => respond (":ok: " ++ subject ++ " was selected.\nPlease wait.")
          else if action.Name = actionSelectTime then
            match action.SelectedOptions with
            | [] => none
            | selected :: _ =>
              match (strings.Split selected.Value ',')[1]? with
              | none => none
              | some value =>
                let start := rt.ParseOrZero "2006-01-02T15:04:05-07:00" value
                respond (":ok: " ++ rt.Format start "2006-01-02 15:04" ++
                  " was selected.\nPlease wait.")
          else if action.Name = actionCancel then
            some { status := none, body := none, async := none }
          else
            some { status := none, body := none, async := none }

/-- One interactive callback from request to the end of the goroutine:
`ServeHTTP`, then `asyncResponse` when it was started. -/
def interaction (h : interactionHandler) (rt : Runtime) (r : Request) :
    Option (Served × AsyncResult) :=
  match h.ServeHTTP rt r with
  | none => none
  | some served =>
    match served.async with
    | none => some (served, { garoon := h.garoonClient, posted := [] })
    | some message =>
      match h.asyncResponse rt message with
      | none => none
      | some result => some (served, result)

end interactionHandler

/-! ## A concrete runtime, backend and callbacks -/

namespace time

/-- Decimal digits of `n`, zero-padded to `width`. -/
def padded (width : Nat) (n : Int) : String :=
  let s := toString n.toNat
  String.mk (List.replicate (width - s.length) '0') ++ s

/-- The layout `2006-01-02 15:04`, for years `0..9999`. -/
def formatForRead (t : Time) : String :=
  padded 4 t.Year ++ "-" ++ padded 2 t.Month ++ "-" ++ padded 2 t.Day ++ " " ++
    padded 2 t.Hour ++ ":" ++ padded 2 t.Minute

/-- The layout `2006-01-02T15:04:05-07:00`, for years `0..9999`. -/
def formatForValue (t : Time) : String :=
  padded 4 t.Year ++ "-" ++ padded 2 t.Month ++ "-" ++ padded 2 t.Day ++ "T" ++
    padded 2 t.Hour ++ ":" ++ padded 2 t.Minute ++ ":" ++ padded 2 t.Second ++
    (if t.off < 0 then "-" else "+") ++
    padded 2 (t.off.natAbs / 3600) ++ ":" ++ padded 2 (t.off.natAbs % 3600 / 60)

/-- A formatter for the two layouts the program uses. -/
def formatLayout (t : Time) (layout : String) : String :=
  if layout = "2006-01-02 15:04" then formatForRead t
  else if layout = "2006-01-02T15:04:05-07:00" then formatForValue t
  else layout

/-- The number written by a list of decimal digits. -/
def readDigits : List Char → Option Int
  | [] => some 0
  | c :: cs =>
    if 48 ≤ c.toNat ∧ c.toNat ≤ 57 then
      match readDigits cs with
      | none => none
      | some v => some (((c.toNat : Int) - 48) * 10 ^ cs.length + v)
    else none

/-- Range checks on the fields read, then the time. -/
def checkedDate (year month day hour min sec zh zm sign : Int) : Option Time :=
  if month < 1 ∨ 12 < month ∨ day < 1 ∨ 31 < day then none
  else if 23 < hour ∨ 59 < min ∨ 59 < sec ∨ 59 < zm then none
  else if (civilFromDays (daysFromCivil year month day)).2.1 ≠ month then none
  else some (Date year month day hour min sec 0 (sign * (zh * 3600 + zm * 60)))

/-- A parser for the 25-character form of the layout
`2006-01-02T15:04:05-07:00`. -/
def parseForValue (value : String) : Option Time :=
  match value.toList with
  | [y1, y2, y3, y4, c1, m1, m2, c2, d1, d2, c3, h1, h2, c4, n1, n2, c5, s1, s2, sg,
      z1, z2, c6, z3, z4] =>
    if c1 = '-' ∧ c2 = '-' ∧ c3 = 'T' ∧ c4 = ':' ∧ c5 = ':' ∧ c6 = ':' ∧
        (sg = '+' ∨ sg = '-') then
      match readDigits [y1, y2, y3, y4], readDigits [m1, m2], readDigits [d1, d2],
        readDigits [h1, h2], readDigits [n1, n2], readDigits [s1, s2],
        readDigits [z1, z2], readDigits [z3, z4] with
      | some year, some month, some day, some hour, some min, some sec, some zh, some zm =>
        checkedDate year month day hour min sec zh zm (if sg = '-' then -1 else 1)
      | _, _, _, _, _, _, _, _ => none
    else none
  | _ => none

/-- A parser for the one layout the program parses. -/
def parseLayout (layout value : String) : Option Time :=
  if layout = "2006-01-02T15:04:05-07:00" then parseForValue value else none

end time

namespace Example

/-- Japan Standard Time, whole minutes as text, 2019-01-06 10:00 on the clock. -/
def runtime : Runtime :=
  { nowSec := 1546736400
    nowNsec := 0
    Local := 32400
    Format := time.formatLayout
    Parse := time.parseLayout
    FormatMinutes := fun d => toString (d / 60000000000) }

/-- A room of the facility group `G`. -/
def room (id code : String) : garoon.Facility :=
  { ID := id, Code := code, Name := "Room " ++ code, FacilityGroup := "G" }

/-- A one-hour meeting in room `A` that ends at 11:00 (JST) on the given day
of January 2019. -/
def meetingOn (id subject : String) (day : Int) : garoon.Event :=
  { ID := id
    Subject := subject
    Start := { DateTime := time.Date 2019 1 day 10 0 0 0 32400, TimeZone := "Asia/Tokyo" }
    End := { DateTime := time.Date 2019 1 day 11 0 0 0 32400, TimeZone := "Asia/Tokyo" }
    IsAllDay := false
    IsStartOnly := false
    Attendees := [ { ID := "7", Code := "alice", Name := "Alice", Type_ := "USER" } ]
    Facilities := [ room "1" "A" ] }

/-- The meeting of the test: it ends on Sunday 2019-01-06 at 11:00. -/
def meeting : garoon.Event := meetingOn "M1" "Weekly" 6

/-- A meeting that ends on Monday 2019-01-07 at 11:00. -/
def mondayMeeting : garoon.Event := meetingOn "M2" "Review" 7

/-- A free slot of one hour from `start`. -/
def slot (start : time.Time) (r : garoon.Facility) : garoon.AvailableTime :=
  { Start := { DateTime := start, TimeZone := "Asia/Tokyo" }
    End := { DateTime := { start with sec := start.sec + 3600 }, TimeZone := "Asia/Tokyo" }
    Facility := r }

/-- A backend holding the two meetings; three slots are free on a Monday
window (answered out of order), none on the other days. -/
def backend : garoon.Client :=
  { events := [meeting, mondayMeeting]
    rejectsUpdate := fun _ => false
    facilitiesByName := fun _ => .ok [room "1" "A"]
    facilitiesByGroup := fun _ => .ok [room "1" "A", room "2" "B", room "3" "C"]
    availableTimes := fun param =>
      match param.TimeRanges with
      | [r] =>
        if r.Start.Weekday = 1 then
          .ok [ slot { r.Start with sec := r.Start.sec + 3600 } (room "1" "A"),
                slot r.Start (room "2" "B"),
                slot r.Start (room "1" "A") ]
        else .ok []
      | _ => .ok [] }

/-- The handler of the owner `U1`; room `C` is excluded from the search. -/
def handler : interactionHandler :=
  { ownerSlackID := "U1"
    garoonClient := backend
    garoonExcludingFacilityCode := "C,Z"
    verificationToken := "secret" }

/-- The owner of the handler. -/
def owner : slack.User := { ID := "U1", Name := "alice" }

/-- Another user of the channel. -/
def guest : slack.User := { ID := "U2", Name := "bob" }

/-- The action sent when the option with the given value is chosen from the
menu `name` (for a button there is no chosen option and the value is unused). -/
def chosen (name value : String) : slack.AttachmentAction :=
  { slack.AttachmentAction.empty with
      Name := name
      SelectedOptions := if name = actionCancel then [] else [ { Text := "", Value := value } ] }

/-- The target-selection menu posted for the two meetings of the backend. -/
def targetMenu : slack.Attachment :=
  SlackListener.setupAttachment runtime { Events := backend.events }

/-- An authentic callback of `user` in channel `C1`, on a message that holds
the menu. -/
def callback (user : slack.User) (action : slack.AttachmentAction) :
    slack.AttachmentActionCallback :=
  { Actions := [action]
    Token := "secret"
    User := user
    Channel := { ID := "C1" }
    OriginalMessage :=
      { Text := "", Attachments := [targetMenu], ReplaceOriginal := false, ResponseType := "" } }

/-- The request that carries a callback. -/
def request (message : slack.AttachmentActionCallback) : interactionHandler.Request :=
  { Method := "POST", Body := .payload message }

/-- The token of the first slot offered for the Sunday meeting. -/
def slotToken : String := "M1,2019-01-07T10:00:00+09:00,2019-01-07T11:00:00+09:00,2"

/-- The token of a slot for a meeting the backend does not hold. -/
def strayToken : String := "M9,2019-01-07T10:00:00+09:00,2019-01-07T11:00:00+09:00,2"

/-- The runtime at 15:00 on Monday 2019-01-07. -/
def afternoon : Runtime := { runtime with nowSec := 1546840800 }

/-- The runtime at 19:00 on Monday 2019-01-07. -/
def evening : Runtime := { runtime with nowSec := 1546855200 }

/-- The business window 10:00 to 19:00 (JST) of a day of January 2019. -/
def window (day : Int) : garoon.DateTimePeriod :=
  { Start := time.Date 2019 1 day 10 0 0 0 32400
    End := time.Date 2019 1 day 19 0 0 0 32400 }

/-- The rooms searched for the meetings: the group of room `A` without the
excluded room `C`. -/
def rooms : List garoon.Facility := [room "1" "A", room "2" "B"]

/-- The availability query for one window of the Sunday meeting. -/
def query (r : garoon.DateTimePeriod) : garoon.AvailableTimeParameter :=
  { TimeRanges := [r]
    TimeInterval := "60"
    Attendees := meeting.Attendees
    Facilities := rooms
    FacilitySearchCondition := "OR" }

/-- An authentic callback of `user` in channel `C1` whose original message
carries no attachment. -/
def bareCallback (user : slack.User) (action : slack.AttachmentAction) :
    slack.AttachmentActionCallback :=
  { callback user action with
      OriginalMessage :=
        { Text := "", Attachments := [], ReplaceOriginal := false, ResponseType := "" } }

/-- The handler in front of a backend that rejects every update. -/
def rejectingHandler : interactionHandler :=
  { handler with garoonClient := { backend with rejectsUpdate := fun _ => true } }

end Example

/-! ## Calendar lemmas -/

namespace time

theorem yoe_bounds (doe : Int) (h0 : 0 ≤ doe) (h1 : doe ≤ 146096) :
    0 ≤ (doe - doe / 1460 + doe / 36524 - doe / 146096) / 365 ∧
    (doe - doe / 1460 + doe / 36524 - doe / 146096) / 365 ≤ 399 ∧
    0 ≤ doe - (365 * ((doe - doe / 1460 + doe / 36524 - doe / 146096) / 365)
        + ((doe - doe / 1460 + doe / 36524 - doe / 146096) / 365) / 4
        - ((doe - doe / 1460 + doe / 36524 - doe / 146096) / 365) / 100) ∧
    doe - (365 * ((doe - doe / 1460 + doe / 36524 - doe / 146096) / 365)
        + ((doe - doe / 1460 + doe / 36524 - doe / 146096) / 365) / 4
        - ((doe - doe / 1460 + doe / 36524 - doe / 146096) / 365) / 100) ≤ 365 := by
  generalize hy : (doe - doe / 1460 + doe / 36524 - doe / 146096) / 365 = yoe
  have hc : doe / 36524 = 0 ∨ doe / 36524 = 1 ∨ doe / 36524 = 2 ∨ doe / 36524 = 3 ∨
      doe / 36524 = 4 := by omega
  have hd : doe / 146096 = 0 ∨ doe / 146096 = 1 := by omega
  have hyb : 0 ≤ yoe ∧ yoe ≤ 400 := by omega
  have hq : yoe / 100 = 0 ∨ yoe / 100 = 1 ∨ yoe / 100 = 2 ∨ yoe / 100 = 3 ∨
      yoe / 100 = 4 := by omega
  rcases hc with hc | hc | hc | hc | hc <;> rcases hd with hd | hd <;>
    rcases hq with hq | hq | hq | hq | hq <;> omega

/-- The month of a civil date lies in `1..12`. -/
theorem civilFromDays_month (z : Int) :
    1 ≤ (civilFromDays z).2.1 ∧ (civilFromDays z).2.1 ≤ 12 := by
  simp only [civilFromDays]
  have hd : 0 ≤ z + 719468 - (z + 719468) / 146097 * 146097 ∧
      z + 719468 - (z + 719468) / 146097 * 146097 ≤ 146096 := by omega
  generalize z + 719468 - (z + 719468) / 146097 * 146097 = doe at *
  have hb := yoe_bounds doe hd.1 hd.2
  generalize (doe - doe / 1460 + doe / 36524 - doe / 146096) / 365 = yoe at *
  generalize doe - (365 * yoe + yoe / 4 - yoe / 100) = doy at *
  split_ifs <;> omega

theorem daysFromCivil_parts (era yoe doy mp k : Int)
    (hy : 0 ≤ yoe ∧ yoe ≤ 399) (hm : 0 ≤ mp ∧ mp ≤ 11) :
    daysFromCivil
      (if (if mp < 10 then mp + 3 else mp - 9) ≤ 2 then yoe + era * 400 + 1
        else yoe + era * 400)
      (if mp < 10 then mp + 3 else mp - 9)
      (doy - (153 * mp + 2) / 5 + 1 + k)
      = era * 146097 + (yoe * 365 + yoe / 4 - yoe / 100 + doy) - 719468 + k := by
  have hg : (yoe + era * 400) / 400 = era := by omega
  have he : yoe + era * 400 - era * 400 = yoe := by ring
  rcases lt_or_le mp 10 with h | h
  · rw [if_pos h]
    simp only [daysFromCivil]
    rw [if_neg (by omega : ¬ mp + 3 ≤ 2), if_neg (by omega : ¬ mp + 3 ≤ 2),
      if_pos (by omega : mp + 3 > 2), hg, he, add_sub_cancel_right]
    omega
  · rw [if_neg (by omega : ¬ mp < 10)]
    simp only [daysFromCivil]
    rw [if_pos (by omega : mp - 9 ≤ 2), if_pos (by omega : mp - 9 ≤ 2),
      if_neg (by omega : ¬ mp - 9 > 2), add_sub_cancel_right, hg, he, sub_add_cancel]
    omega

/-- Day numbers and civil dates correspond, also with a day carried over. -/
theorem daysFromCivil_civilFromDays (z k : Int) :
    daysFromCivil (civilFromDays z).1 (civilFromDays z).2.1 ((civilFromDays z).2.2 + k)
      = z + k := by
  simp only [civilFromDays]
  have hd : 0 ≤ z + 719468 - (z + 719468) / 146097 * 146097 ∧
      z + 719468 - (z + 719468) / 146097 * 146097 ≤ 146096 := by omega
  generalize hera : (z + 719468) / 146097 = era at *
  generalize hdoe : z + 719468 - era * 146097 = doe at *
  have hb := yoe_bounds doe hd.1 hd.2
  generalize (doe - doe / 1460 + doe / 36524 - doe / 146096) / 365 = yoe at *
  generalize hdoy : doe - (365 * yoe + yoe / 4 - yoe / 100) = doy at *
  have hm : 0 ≤ (5 * doy + 2) / 153 ∧ (5 * doy + 2) / 153 ≤ 11 := by omega
  rw [daysFromCivil_parts era yoe doy _ k ⟨hb.1, hb.2.1⟩ hm]
  omega

/-- The wall clock of `time.Date` at a civil date, with a day carried over. -/
theorem Date_abs (z k hour min sec nsec loc : Int) (hn : 0 ≤ nsec ∧ nsec < 1000000000) :
    (Date (civilFromDays z).1 (civilFromDays z).2.1 ((civilFromDays z).2.2 + k)
      hour min sec nsec loc).abs = (z + k) * 86400 + hour * 3600 + min * 60 + sec := by
  have hm := civilFromDays_month z
  have h1 : ((civilFromDays z).2.1 - 1) / 12 = 0 := by omega
  have h2 : ((civilFromDays z).2.1 - 1) % 12 + 1 = (civilFromDays z).2.1 := by omega
  have h3 : nsec / 1000000000 = 0 := by omega
  simp only [Date, Time.abs, h1, h2, h3, add_zero, daysFromCivil_civilFromDays]
  omega

/-- Adding `i` days moves the wall clock by `i` times 24 hours. -/
theorem AddDate_abs (t : Time) (i : Int) : (t.AddDate 0 0 i).abs = t.abs + i * 86400 := by
  have hn : 0 ≤ (t.nsec.val : Int) ∧ (t.nsec.val : Int) < 1000000000 :=
    ⟨Int.ofNat_nonneg _, by exact_mod_cast t.nsec.isLt⟩
  simp only [Time.AddDate, Time.Year, Time.Month, Time.Day, add_zero]
  rw [Date_abs t.days i _ _ _ _ _ hn]
  simp only [Time.Hour, Time.Minute, Time.Second, Time.days]
  omega

/-- Adding `i` days moves the civil date by `i` days. -/
theorem AddDate_days (t : Time) (i : Int) : (t.AddDate 0 0 i).days = t.days + i := by
  simp only [Time.days, AddDate_abs]
  omega

/-- The time `h:00:00` on the civil date of `d`, in the zone `loc`. -/
theorem Date_of_day (d : Time) (hour loc : Int) :
    Date d.Year d.Month d.Day hour 0 0 0 loc
      = { sec := d.days * 86400 + hour * 3600 - loc, nsec := 0, off := loc } := by
  have hm := civilFromDays_month d.days
  have h1 : ((civilFromDays d.days).2.1 - 1) / 12 = 0 := by omega
  have h2 : ((civilFromDays d.days).2.1 - 1) % 12 + 1 = (civilFromDays d.days).2.1 := by omega
  have h4 := daysFromCivil_civilFromDays d.days 0
  simp only [add_zero] at h4
  simp only [Date, Time.Year, Time.Month, Time.Day, h1, h2, add_zero, h4]
  refine congrArg₂ (fun a b => ({ sec := a, nsec := b, off := loc } : Time)) (by omega) ?_
  rfl

end time

/-! ## The time windows (`buildTimeRanges`) -/

namespace interactionHandler

/-- The loop body of `buildTimeRanges` in terms of the day number of the end
of the meeting. -/
theorem timeRangeAt_eq (rt : Runtime) (end_ : time.Time) (i : Nat) :
    timeRangeAt rt end_ i =
      if (end_.days + i + 4) % 7 = 0 ∨ (end_.days + i + 4) % 7 = 6 then none
      else if i = 0 then
        if rt.Now.Hour ≥ 19 then none
        else if rt.Now.Hour > 10 then
          some { Start := { sec := (end_.days + i) * 86400 + rt.Now.Hour * 3600 - rt.Local,
                            nsec := 0, off := rt.Local }
                 End := { sec := (end_.days + i) * 86400 + 19 * 3600 - rt.Local,
                          nsec := 0, off := rt.Local } }
        else
          some { Start := { sec := (end_.days + i) * 86400 + 10 * 3600 - rt.Local,
                            nsec := 0, off := rt.Local }
                 End := { sec := (end_.days + i) * 86400 + 19 * 3600 - rt.Local,
                          nsec := 0, off := rt.Local } }
      else
        some { Start := { sec := (end_.days + i) * 86400 + 10 * 3600 - rt.Local,
                          nsec := 0, off := rt.Local }
               End := { sec := (end_.days + i) * 86400 + 19 * 3600 - rt.Local,
                        nsec := 0, off := rt.Local } } := by
  simp only [timeRangeAt, time.Date_of_day, time.Time.Weekday, time.AddDate_days]

/-- What a window emitted for the day `i` looks like. -/
theorem timeRangeAt_some (rt : Runtime) (end_ : time.Time) (i : Nat)
    (p : garoon.DateTimePeriod) (hp : timeRangeAt rt end_ i = some p) :
    ∃ startHour : Int, 10 ≤ startHour ∧ startHour ≤ 18 ∧
      (i ≠ 0 → startHour = 10) ∧
      (i = 0 → rt.Now.Hour < 19 ∧ (10 < rt.Now.Hour → startHour = rt.Now.Hour) ∧
        (rt.Now.Hour ≤ 10 → startHour = 10)) ∧
      (end_.days + i + 4) % 7 ≠ 0 ∧ (end_.days + i + 4) % 7 ≠ 6 ∧
      p = { Start := { sec := (end_.days + i) * 86400 + startHour * 3600 - rt.Local,
                       nsec := 0, off := rt.Local }
            End := { sec := (end_.days + i) * 86400 + 19 * 3600 - rt.Local,
                     nsec := 0, off := rt.Local } } := by
  rw [timeRangeAt_eq] at hp
  split_ifs at hp with h1 h2 h3 h4
  · refine ⟨rt.Now.Hour, by omega, by omega, fun h => absurd h2 h, fun _ => ⟨by omega,
      fun _ => rfl, fun h => by omega⟩, by omega, by omega, ?_⟩
    exact (Option.some.inj hp).symm
  · refine ⟨10, by omega, by omega, fun _ => rfl, fun _ => ⟨by omega,
      fun h => by omega, fun _ => rfl⟩, by omega, by omega, ?_⟩
    exact (Option.some.inj hp).symm
  · refine ⟨10, by omega, by omega, fun _ => rfl, fun h => absurd h h2, by omega, by omega, ?_⟩
    exact (Option.some.inj hp).symm

/-- Every emitted window comes from one of the eight days. -/
theorem mem_buildTimeRanges (h : interactionHandler) (rt : Runtime) (ev : garoon.Event)
    (periods : List garoon.DateTimePeriod) (hok : h.buildTimeRanges rt ev = .ok periods)
    (p : garoon.DateTimePeriod) (hp : p ∈ periods) :
    ∃ i : Nat, i < 8 ∧ timeRangeAt rt ev.End.DateTime i = some p := by
  simp only [buildTimeRanges, Except.ok.injEq] at hok
  subst hok
  obtain ⟨i, hi, hi2⟩ := List.mem_filterMap.mp hp
  exact ⟨i, List.mem_range.mp hi, hi2⟩

/-- The eight days of the loop, one by one. -/
theorem buildTimeRanges_unfold (h : interactionHandler) (rt : Runtime) (ev : garoon.Event) :
    h.buildTimeRanges rt ev = .ok
      ((timeRangeAt rt ev.End.DateTime 0).toList ++
        ([1, 2, 3, 4, 5, 6, 7].filterMap (timeRangeAt rt ev.End.DateTime))) := by
  have hr : List.range 8 = 0 :: [1, 2, 3, 4, 5, 6, 7] := by decide
  simp only [buildTimeRanges, hr, List.filterMap_cons]
  cases timeRangeAt rt ev.End.DateTime 0 <;> rfl

/-- A window of a later day is not on the day the meeting ends. -/
theorem later_days (rt : Runtime) (end_ : time.Time) (q : garoon.DateTimePeriod)
    (hq : q ∈ [1, 2, 3, 4, 5, 6, 7].filterMap (timeRangeAt rt end_)) :
    q.Start.days ≠ end_.days ∧ q.Start.Hour = 10 ∧ q.Start.Minute = 0 ∧
      q.Start.Second = 0 := by
  obtain ⟨i, hi, hi2⟩ := List.mem_filterMap.mp hq
  have hi1 : 1 ≤ i := by
    simp only [List.mem_cons, List.mem_singleton, List.not_mem_nil, or_false] at hi
    omega
  obtain ⟨sh, _, _, h3, _, _, _, rfl⟩ := timeRangeAt_some rt end_ i q hi2
  have hsh : sh = 10 := h3 (by omega)
  subst hsh
  simp only [time.Time.days, time.Time.Hour, time.Time.Minute, time.Time.Second,
    time.Time.abs]
  omega

/-- C5: `buildTimeRanges` never emits a window whose date is a Saturday or a
Sunday, for every end of the meeting and every current time; and for a
meeting that ends on a Sunday the first window emitted is on the day after,
a Monday, from 10:00. -/
theorem buildTimeRanges_no_weekend (h : interactionHandler) (rt : Runtime)
    (ev : garoon.Event) :
    ∃ periods, h.buildTimeRanges rt ev = .ok periods ∧
      (∀ p ∈ periods, p.Start.Weekday ≠ 0 ∧ p.Start.Weekday ≠ 6 ∧
        p.End.Weekday ≠ 0 ∧ p.End.Weekday ≠ 6) ∧
      (ev.End.DateTime.Weekday = 0 → ∃ p rest, periods = p :: rest ∧
        p.Start.days = ev.End.DateTime.days + 1 ∧ p.Start.Weekday = 1 ∧
        p.Start.Hour = 10) := by
  refine ⟨_, buildTimeRanges_unfold h rt ev, ?_, ?_⟩
  · intro p hp
    obtain ⟨i, _, hi⟩ := mem_buildTimeRanges h rt ev _ (buildTimeRanges_unfold h rt ev) p hp
    obtain ⟨sh, h1, h2, _, _, h5, h6, rfl⟩ := timeRangeAt_some rt _ i p hi
    simp only [time.Time.Weekday, time.Time.days, time.Time.abs] at h5 h6 ⊢
    omega
  · intro hs
    simp only [time.Time.Weekday] at hs
    have h0 : timeRangeAt rt ev.End.DateTime 0 = none := by
      rw [timeRangeAt_eq, if_pos]
      left
      simp only [Nat.cast_zero]
      omega
    have h1 : timeRangeAt rt ev.End.DateTime 1 =
        some { Start := { sec := (ev.End.DateTime.days + 1) * 86400 + 10 * 3600 - rt.Local,
                          nsec := 0, off := rt.Local }
               End := { sec := (ev.End.DateTime.days + 1) * 86400 + 19 * 3600 - rt.Local,
                        nsec := 0, off := rt.Local } } := by
      rw [timeRangeAt_eq, if_neg, if_neg (by decide)]
      · simp only [Nat.cast_one]
      · simp only [Nat.cast_one]
        omega
    rw [h0, List.filterMap_cons, h1]
    refine ⟨_, _, rfl, ?_⟩
    simp only [time.Time.Weekday, time.Time.days, time.Time.Hour, time.Time.abs] at hs ⊢
    omega

/-- C6: when the meeting ends on a weekday, with the current local hour `h`:
for `h ≥ 19` no window is on the day the meeting ends; for `10 < h < 19` the
first window is on that day, from `h:00` to 19:00, and no other window is on
that day; for `h ≤ 10` it is from 10:00 to 19:00.  The windows of the later
days (`i ≥ 1`) start at 10:00, whatever the day the meeting ends. -/
theorem buildTimeRanges_same_day (h : interactionHandler) (rt : Runtime)
    (ev : garoon.Event)
    (hwd : ev.End.DateTime.Weekday ≠ 0 ∧ ev.End.DateTime.Weekday ≠ 6) :
    ∃ periods, h.buildTimeRanges rt ev = .ok periods ∧
      (rt.Now.Hour ≥ 19 → ∀ p ∈ periods, p.Start.days ≠ ev.End.DateTime.days) ∧
      (10 < rt.Now.Hour ∧ rt.Now.Hour < 19 → ∃ p rest, periods = p :: rest ∧
        p.Start.days = ev.End.DateTime.days ∧ p.Start.Hour = rt.Now.Hour ∧
        p.Start.Minute = 0 ∧ p.Start.Second = 0 ∧ p.Start.nsec = 0 ∧
        p.End.days = ev.End.DateTime.days ∧ p.End.Hour = 19 ∧
        p.End.Minute = 0 ∧ p.End.Second = 0 ∧ p.End.nsec = 0 ∧
        ∀ q ∈ rest, q.Start.days ≠ ev.End.DateTime.days) ∧
      (rt.Now.Hour ≤ 10 → ∃ p rest, periods = p :: rest ∧
        p.Start.days = ev.End.DateTime.days ∧ p.Start.Hour = 10 ∧
        p.Start.Minute = 0 ∧ p.Start.Second = 0 ∧ p.Start.nsec = 0 ∧
        p.End.days = ev.End.DateTime.days ∧ p.End.Hour = 19 ∧
        p.End.Minute = 0 ∧ p.End.Second = 0 ∧ p.End.nsec = 0 ∧
        ∀ q ∈ rest, q.Start.days ≠ ev.End.DateTime.days) ∧
      (∀ i : Nat, 1 ≤ i → ∀ p, timeRangeAt rt ev.End.DateTime i = some p →
        p.Start.days = ev.End.DateTime.days + i ∧ p.Start.Hour = 10 ∧
        p.Start.Minute = 0 ∧ p.Start.Second = 0 ∧ p.Start.nsec = 0) := by
  simp only [time.Time.Weekday] at hwd
  have hu := buildTimeRanges_unfold h rt ev
  have hc : ¬ ((ev.End.DateTime.days + ((0 : Nat) : Int) + 4) % 7 = 0 ∨
      (ev.End.DateTime.days + ((0 : Nat) : Int) + 4) % 7 = 6) := by
    simp only [Nat.cast_zero]
    omega
  refine ⟨_, hu, ?_, ?_, ?_, ?_⟩
  · intro h19 p hp
    have h0 : timeRangeAt rt ev.End.DateTime 0 = none := by
      rw [timeRangeAt_eq, if_neg hc, if_pos rfl, if_pos h19]
    rw [h0] at hp
    exact (later_days rt _ p hp).1
  · intro hh
    have h0 : timeRangeAt rt ev.End.DateTime 0 = some
        { Start := { sec := (ev.End.DateTime.days + ((0 : Nat) : Int)) * 86400 +
                      rt.Now.Hour * 3600 - rt.Local, nsec := 0, off := rt.Local }
          End := { sec := (ev.End.DateTime.days + ((0 : Nat) : Int)) * 86400 +
                    19 * 3600 - rt.Local, nsec := 0, off := rt.Local } } := by
      rw [timeRangeAt_eq, if_neg hc, if_pos rfl, if_neg (by omega), if_pos (by omega)]
    rw [h0]
    refine ⟨_, _, rfl, ?_, ?_, ?_, ?_, rfl, ?_, ?_, ?_, ?_, rfl,
      fun q hq => (later_days rt _ q hq).1⟩ <;>
    · simp only [time.Time.days, time.Time.Hour, time.Time.Minute, time.Time.Second,
        time.Time.abs, Nat.cast_zero]
      omega
  · intro hh
    have h0 : timeRangeAt rt ev.End.DateTime 0 = some
        { Start := { sec := (ev.End.DateTime.days + ((0 : Nat) : Int)) * 86400 +
                      10 * 3600 - rt.Local, nsec := 0, off := rt.Local }
          End := { sec := (ev.End.DateTime.days + ((0 : Nat) : Int)) * 86400 +
                    19 * 3600 - rt.Local, nsec := 0, off := rt.Local } } := by
      rw [timeRangeAt_eq, if_neg hc, if_pos rfl, if_neg (by omega), if_neg (by omega)]
    rw [h0]
    refine ⟨_, _, rfl, ?_, ?_, ?_, ?_, rfl, ?_, ?_, ?_, ?_, rfl,
      fun q hq => (later_days rt _ q hq).1⟩ <;>
    · simp only [time.Time.days, time.Time.Hour, time.Time.Minute, time.Time.Second,
        time.Time.abs, Nat.cast_zero]
      omega
  · intro i hi p hp
    obtain ⟨sh, _, _, h3, _, _, _, rfl⟩ := timeRangeAt_some rt _ i p hp
    have hsh : sh = 10 := h3 (by omega)
    subst hsh
    refine ⟨?_, ?_, ?_, ?_, rfl⟩ <;>
    · simp only [time.Time.days, time.Time.Hour, time.Time.Minute, time.Time.Second,
        time.Time.abs]
      omega

/-- C7: every window emitted by `buildTimeRanges` starts strictly before it
ends (so its start is not after its end), for every meeting and every current
time, the current hour 19 included. -/
theorem buildTimeRanges_start_before_end (h : interactionHandler) (rt : Runtime)
    (ev : garoon.Event) :
    ∃ periods, h.buildTimeRanges rt ev = .ok periods ∧
      ∀ p ∈ periods, p.Start.Before p.End ∧ ¬ p.Start.After p.End ∧
        ¬ p.Start.Equal p.End := by
  refine ⟨_, rfl, ?_⟩
  intro p hp
  obtain ⟨i, _, hi⟩ := mem_buildTimeRanges h rt ev _ rfl p hp
  obtain ⟨sh, h1, h2, _, _, _, _, rfl⟩ := timeRangeAt_some rt _ i p hi
  simp only [time.Time.Before, time.Time.After, time.Time.Equal]
  omega

end interactionHandler

/-! ## Sorting the free slots (`searchAvailableTimes`) -/

namespace sort

theorem insertBack_head {α : Type} (less : α → α → Bool) (x : α) (l : List α) :
    ∀ z ∈ (insertBack less x l).head?, z = x ∨ z ∈ l.head? := by
  intro z hz
  cases l with
  | nil =>
    simp only [insertBack, List.head?_cons, Option.mem_def, Option.some.injEq] at hz
    exact Or.inl hz.symm
  | cons y ys =>
    simp only [insertBack] at hz
    split_ifs at hz
    · exact Or.inr hz
    · simp only [List.head?_cons, Option.mem_def, Option.some.injEq] at hz
      exact Or.inl hz.symm

/-- Inserting keeps the sorted part free of inversions. -/
theorem insertBack_chain {α : Type} (less : α → α → Bool)
    (hasym : ∀ a b, less a b = true → less b a = false) (x : α) (l : List α)
    (hl : List.Chain' (fun a b => less a b = false) l) :
    List.Chain' (fun a b => less a b = false) (insertBack less x l) := by
  induction l with
  | nil => exact List.chain'_singleton x
  | cons y ys ih =>
    rw [List.chain'_cons'] at hl
    simp only [insertBack]
    split_ifs with hxy
    · rw [List.chain'_cons']
      refine ⟨?_, ih hl.2⟩
      intro z hz
      rcases insertBack_head less x ys z hz with rfl | hz2
      · exact hasym _ _ hxy
      · exact hl.1 z hz2
    · rw [List.chain'_cons']
      refine ⟨?_, List.chain'_cons'.mpr hl⟩
      intro z hz
      simp only [List.head?_cons, Option.mem_def, Option.some.injEq] at hz
      subst hz
      simpa using hxy

theorem insertBack_perm {α : Type} (less : α → α → Bool) (x : α) (l : List α) :
    (insertBack less x l).Perm (x :: l) := by
  induction l with
  | nil => exact List.Perm.refl _
  | cons y ys ih =>
    simp only [insertBack]
    split_ifs
    · exact ((List.Perm.cons y ih).trans (List.Perm.swap x y ys))
    · exact List.Perm.refl _

theorem foldl_insertBack {α : Type} (less : α → α → Bool)
    (hasym : ∀ a b, less a b = true → less b a = false) (data acc : List α)
    (hacc : List.Chain' (fun a b => less a b = false) acc) :
    List.Chain' (fun a b => less a b = false)
        (data.foldl (fun sorted x => insertBack less x sorted) acc) ∧
      (data.foldl (fun sorted x => insertBack less x sorted) acc).Perm (data ++ acc) := by
  induction data generalizing acc with
  | nil => exact ⟨hacc, List.Perm.refl _⟩
  | cons x xs ih =>
    simp only [List.foldl_cons]
    obtain ⟨h1, h2⟩ := ih (insertBack less x acc) (insertBack_chain less hasym x acc hacc)
    refine ⟨h1, h2.trans ?_⟩
    refine (List.Perm.append_left xs (insertBack_perm less x acc)).trans ?_
    exact List.perm_middle

/-- The sorted data has no element `less` than its left neighbour, and holds
the same elements. -/
theorem Sort_sorted {α : Type} (less : α → α → Bool)
    (hasym : ∀ a b, less a b = true → less b a = false) (data : List α) :
    List.Chain' (fun a b => less b a = false) (Sort_ less data) ∧
      (Sort_ less data).Perm data := by
  obtain ⟨h1, h2⟩ := foldl_insertBack less hasym data [] List.chain'_nil
  refine ⟨?_, ?_⟩
  · simp only [Sort_]
    rw [List.chain'_reverse]
    exact h1
  · simp only [Sort_]
    exact (List.reverse_perm _).trans (by simpa using h2)

end sort

/-- `Less` never holds both ways. -/
theorem AvailableTimes.Less_asymm (a b : garoon.AvailableTime)
    (hab : AvailableTimes.Less a b = true) : AvailableTimes.Less b a = false := by
  simp only [AvailableTimes.Less, time.Time.Equal, time.Time.Before, strings.Less] at hab ⊢
  by_cases he : a.Start.DateTime.sec = b.Start.DateTime.sec ∧
      a.Start.DateTime.nsec = b.Start.DateTime.nsec
  · rw [if_pos he] at hab
    rw [if_pos ⟨he.1.symm, he.2.symm⟩]
    simp only [decide_eq_true_eq, decide_eq_false_iff_not] at hab ⊢
    exact lt_asymm hab
  · rw [if_neg he] at hab
    have he2 : ¬ (b.Start.DateTime.sec = a.Start.DateTime.sec ∧
        b.Start.DateTime.nsec = a.Start.DateTime.nsec) := fun hh => he ⟨hh.1.symm, hh.2.symm⟩
    rw [if_neg he2]
    simp only [decide_eq_true_eq, decide_eq_false_iff_not] at hab ⊢
    rcases hab with hlt | ⟨heq, hlt⟩
    · rintro (h1 | ⟨h1, _⟩) <;> omega
    · rintro (h1 | ⟨_, h2⟩)
      · omega
      · exact absurd hlt (lt_asymm h2)

/-- The order of two neighbours that are not an inversion. -/
theorem AvailableTimes.not_Less (a b : garoon.AvailableTime)
    (hba : AvailableTimes.Less b a = false) :
    a.Start.DateTime.Before b.Start.DateTime ∨
      (a.Start.DateTime.Equal b.Start.DateTime ∧
        strings.LessEq a.Facility.Code b.Facility.Code) := by
  simp only [AvailableTimes.Less, time.Time.Equal, time.Time.Before, strings.Less,
    strings.LessEq] at hba ⊢
  by_cases he : b.Start.DateTime.sec = a.Start.DateTime.sec ∧
      b.Start.DateTime.nsec = a.Start.DateTime.nsec
  · rw [if_pos he] at hba
    simp only [decide_eq_false_iff_not] at hba
    exact Or.inr ⟨⟨he.1.symm, he.2.symm⟩, not_lt.mp hba⟩
  · rw [if_neg he] at hba
    simp only [decide_eq_false_iff_not, not_or, not_and, not_lt] at hba
    left
    rcases lt_trichotomy a.Start.DateTime.sec b.Start.DateTime.sec with h1 | h1 | h1
    · exact Or.inl h1
    · refine Or.inr ⟨h1, ?_⟩
      have h2 := hba.2 h1.symm
      rcases lt_or_eq_of_le h2 with h3 | h3
      · exact h3
      · exact absurd ⟨h1.symm, h3.symm⟩ he
    · exact absurd h1 (not_lt.mpr hba.1)

namespace interactionHandler

/-- The query loop returns when every query does. -/
theorem collectAvailableTimes_ok (c : garoon.Client)
    (params : List garoon.AvailableTimeParameter) (acc : List garoon.AvailableTime)
    (hq : ∀ param ∈ params, ∃ pager, c.SearchAvailableTimes param = .ok pager) :
    ∃ found, collectAvailableTimes c params acc = .ok found := by
  induction params generalizing acc with
  | nil => exact ⟨acc, rfl⟩
  | cons p ps ih =>
    obtain ⟨pager, hp⟩ := hq p (List.mem_cons_self _ _)
    simp only [collectAvailableTimes, hp]
    exact ih _ (fun q hq2 => hq q (List.mem_cons_of_mem _ hq2))

/-- C4: when the rooms are resolved and every per-window query succeeds,
`searchAvailableTimes` returns a list that holds exactly the slots found and
is sorted: each slot starts before the next one, or at the same instant with
a room code that is lexically not greater. -/
theorem searchAvailableTimes_sorted (h : interactionHandler) (rt : Runtime)
    (ev : garoon.Event) (facilities : List garoon.Facility)
    (params : List garoon.AvailableTimeParameter)
    (hf : h.getFacilitiesFromOwnFacilityGroup ev.Facilities = .ok facilities)
    (hp : h.buildAvailableTimeParameters rt ev facilities = .ok params)
    (hq : ∀ param ∈ params, ∃ pager, h.garoonClient.SearchAvailableTimes param = .ok pager) :
    ∃ slots found, h.searchAvailableTimes rt ev = .ok slots ∧
      collectAvailableTimes h.garoonClient params [] = .ok found ∧
      slots.Perm found ∧
      ∀ (k : Nat) (hk : k + 1 < slots.length),
        (slots.get ⟨k, by omega⟩).Start.DateTime.Before
            (slots.get ⟨k + 1, hk⟩).Start.DateTime ∨
          ((slots.get ⟨k, by omega⟩).Start.DateTime.Equal
              (slots.get ⟨k + 1, hk⟩).Start.DateTime ∧
            strings.LessEq (slots.get ⟨k, by omega⟩).Facility.Code
              (slots.get ⟨k + 1, hk⟩).Facility.Code) := by
  obtain ⟨found, hfound⟩ := collectAvailableTimes_ok h.garoonClient params [] hq
  obtain ⟨hs, hperm⟩ := sort.Sort_sorted AvailableTimes.Less AvailableTimes.Less_asymm found
  refine ⟨sort.Sort_ AvailableTimes.Less found, found, ?_, hfound, hperm, ?_⟩
  · simp only [searchAvailableTimes, hf, hp, hfound]
  · intro k hk
    rw [List.chain'_iff_get] at hs
    exact AvailableTimes.not_Less _ _ (hs k (by omega))

end interactionHandler

/-! ## The backend store -/

namespace garoon

theorem find_of_FindEvent (c : Client) (id : String) (ev : Event)
    (hfind : c.FindEvent id = .ok ev) :
    c.events.find? (fun e => decide (e.ID = id)) = some ev := by
  simp only [Client.FindEvent] at hfind
  split at hfind
  · next e he => rw [he]; exact congrArg some (Except.ok.inj hfind)
  · exact absurd hfind (by simp)

theorem find_some_ID (l : List Event) (id : String) (ev : Event)
    (h : l.find? (fun e => decide (e.ID = id)) = some ev) : ev.ID = id ∧ ev ∈ l := by
  induction l with
  | nil => simp at h
  | cons x xs ih =>
    by_cases hx : x.ID = id
    · simp only [List.find?_cons, hx, decide_True, Option.some.injEq] at h
      subst h
      exact ⟨hx, List.mem_cons_self _ _⟩
    · simp only [List.find?_cons, hx, decide_False] at h
      exact ⟨(ih h).1, List.mem_cons_of_mem _ (ih h).2⟩

theorem find_map_replace (l : List Event) (id : String) (upd ev : Event)
    (hid : upd.ID = id) (h : l.find? (fun e => decide (e.ID = id)) = some ev) :
    (l.map (fun e => if e.ID = id then upd else e)).find? (fun e => decide (e.ID = id))
      = some upd := by
  induction l with
  | nil => simp at h
  | cons x xs ih =>
    by_cases hx : x.ID = id
    · simp [List.find?_cons, hx, hid]
    · simp only [List.find?_cons, hx, decide_False] at h
      simp [List.find?_cons, hx, ih h]

/-- An accepted update of a stored meeting is what a later fetch returns. -/
theorem FindEvent_UpdateEvent (c : Client) (id : String) (ev upd : Event)
    (hfind : c.FindEvent id = .ok ev) (hid : upd.ID = id)
    (hacc : c.rejectsUpdate upd = false) :
    ∃ c2, c.UpdateEvent upd = .ok c2 ∧ c2.FindEvent id = .ok upd := by
  have hf := find_of_FindEvent c id ev hfind
  have hp := find_some_ID c.events id ev hf
  have hany : c.events.any (fun e => decide (e.ID = upd.ID)) = true := by
    rw [hid, List.any_eq_true]
    exact ⟨ev, hp.2, by simpa using hp.1⟩
  refine ⟨{ c with events := c.events.map (fun e => if e.ID = upd.ID then upd else e) },
    ?_, ?_⟩
  · simp only [Client.UpdateEvent, hacc, hany, if_true, Bool.false_eq_true, if_false]
  · simp only [Client.FindEvent, hid, find_map_replace c.events id upd ev hid hf]

theorem FindEvent_ID (c : Client) (id : String) (ev : Event)
    (hfind : c.FindEvent id = .ok ev) : ev.ID = id := by
  exact (find_some_ID c.events id ev (find_of_FindEvent c id ev hfind)).1

end garoon

/-! ## The work after the acknowledgment (`asyncResponse`) -/

namespace interactionHandler

/-- C1: for an owner who selects a slot with a token that decodes to
`(M1, S, E, R)`, with `S` and `E` well-formed, on a backend that holds the
meeting `M1` and accepts the update: `asyncResponse` leaves `M1` stored with
start `S`, end `E` and the single room with ID `R` (the other fields as they
were), a later fetch of `M1` returns exactly that, and the one reply posted
has the success title. -/
theorem asyncResponse_selectTime_updates (h : interactionHandler) (rt : Runtime)
    (message : slack.AttachmentActionCallback)
    (attachment : slack.Attachment) (attachments : List slack.Attachment)
    (action : slack.AttachmentAction) (actions : List slack.AttachmentAction)
    (selected : slack.AttachmentActionOption) (selections : List slack.AttachmentActionOption)
    (M1 S E R : String) (rest : List String) (ev : garoon.Event) (s e : time.Time)
    (hatt : message.OriginalMessage.Attachments = attachment :: attachments)
    (hact : message.Actions = action :: actions)
    (hname : action.Name = actionSelectTime)
    (howner : message.User.ID = h.ownerSlackID)
    (hsel : action.SelectedOptions = selected :: selections)
    (htok : strings.Split selected.Value ',' = M1 :: S :: E :: R :: rest)
    (hfind : h.garoonClient.FindEvent M1 = .ok ev)
    (hS : rt.Parse "2006-01-02T15:04:05-07:00" S = some s)
    (hE : rt.Parse "2006-01-02T15:04:05-07:00" E = some e)
    (hacc : h.garoonClient.rejectsUpdate
      { ev with
          Start := { ev.Start with DateTime := s }
          End := { ev.End with DateTime := e }
          Facilities := [ { ID := R, Code := "", Name := "", FacilityGroup := "" } ] }
        = false) :
    ∃ result, h.asyncResponse rt message = some result ∧
      result.garoon.FindEvent M1 = .ok
        { ev with
            Start := { ev.Start with DateTime := s }
            End := { ev.End with DateTime := e }
            Facilities := [ { ID := R, Code := "", Name := "", FacilityGroup := "" } ] } ∧
      ev.ID = M1 ∧
      result.posted =
        [ { Channel := message.Channel.ID
            Attachments :=
              [ { attachment with
                    Title := "The schedule has been rescheduled! :white_check_mark:"
                    Text := "", Fields := [], Actions := [] } ] } ] := by
  have hid := garoon.FindEvent_ID h.garoonClient M1 ev hfind
  obtain ⟨c2, hu, hf2⟩ := garoon.FindEvent_UpdateEvent h.garoonClient M1 ev
    { ev with
        Start := { ev.Start with DateTime := s }
        End := { ev.End with DateTime := e }
        Facilities := [ { ID := R, Code := "", Name := "", FacilityGroup := "" } ] }
    hfind hid hacc
  have hupd : h.updateEvent rt M1 S E R = .ok c2 := by
    simp only [updateEvent, hfind, Runtime.ParseOrZero, hS, hE, Option.getD_some]
    rw [hu]
  have hn : ¬ actionSelectTime = actionSelectTarget := by decide
  refine ⟨{ garoon := c2, posted := _ }, ?_, hf2, hid, rfl⟩
  simp only [asyncResponse, hatt, hact, hname, hn, if_false, if_true, howner, ne_eq,
    not_true_eq_false, hsel, htok, List.getElem?_cons_zero, List.getElem?_cons_succ, hupd]

/-- For a user who is not the owner the presenter leaves the controls of the
attachment as they are. -/
theorem setupAttachment_Actions (h : interactionHandler) (rt : Runtime)
    (messageUserID : String) (ev : garoon.Event) (attachment : slack.Attachment)
    (hne : messageUserID ≠ h.ownerSlackID) :
    (h.setupAttachment rt messageUserID ev attachment).1.Actions = attachment.Actions := by
  simp only [setupAttachment]
  split_ifs <;> try rfl
  split
  · rfl
  · split_ifs <;> rfl

/-- C2: for every meeting, every list of slots found and every acting user
who is not the owner, `setupAttachment` offers no selectable option: the
controls of the attachment stay as they were, empty when called from
`asyncResponse`, where every reply posted for the target selection has no
control.  For a supported meeting with `n ≥ 1` slots found the title is
`<n> schedules found.`, and with no slot found it is the no-candidate notice. -/
theorem setupAttachment_not_owner (h : interactionHandler) (rt : Runtime)
    (messageUserID : String) (ev : garoon.Event) (attachment : slack.Attachment)
    (hne : messageUserID ≠ h.ownerSlackID) :
    (h.setupAttachment rt messageUserID ev attachment).1.Actions = attachment.Actions ∧
      (∀ slots, ev.IsAllDay = false → ev.IsStartOnly = false → ev.Facilities.length ≤ 1 →
        h.searchAvailableTimes rt ev = .ok slots →
        (h.setupAttachment rt messageUserID ev attachment).2 = none ∧
        (1 ≤ slots.length →
          (h.setupAttachment rt messageUserID ev attachment).1.Title
            = toString slots.length ++ " schedules found.") ∧
        (slots = [] →
          (h.setupAttachment rt messageUserID ev attachment).1.Title
            = "Could not find a date to reschedule.")) ∧
      (∀ (message : slack.AttachmentActionCallback) (action : slack.AttachmentAction)
        (actions : List slack.AttachmentAction) (result : AsyncResult),
        message.User.ID = messageUserID → message.Actions = action :: actions →
        action.Name = actionSelectTarget → h.asyncResponse rt message = some result →
        ∀ post ∈ result.posted, ∀ a ∈ post.Attachments, a.Actions = []) := by
  refine ⟨setupAttachment_Actions h rt messageUserID ev attachment hne, ?_, ?_⟩
  · intro slots h1 h2 h3 hs
    have h3b : ¬ ev.Facilities.length > 1 := by omega
    simp only [setupAttachment, h1, h2, Bool.or_self, Bool.false_eq_true, if_false, h3b, hs]
    by_cases hl : slots.length = 0
    · simp only [hl, if_true, true_and]
      exact ⟨fun hh => absurd hh (by omega), fun _ => trivial⟩
    · simp only [hl, if_false, hne, ne_eq, not_false_eq_true, if_true, true_and]
      exact ⟨fun _ => trivial, fun hh => absurd (by simp [hh]) hl⟩
  · intro message action actions result hu hact hname hres post hpost a ha
    subst hu
    simp only [asyncResponse, hact, hname, if_true] at hres
    split at hres
    · simp only [Option.some.injEq] at hres
      subst hres
      simp at hpost
    · next attachment0 _ _ =>
      split at hres
      · exact absurd hres (by simp)
      · split at hres
        · exact absurd hres (by simp)
        · split at hres
          · simp only [Option.some.injEq] at hres
            subst hres
            simp at hpost
          · next ev2 _ =>
            have hA := setupAttachment_Actions h rt message.User.ID ev2
              { attachment0 with Title := "", Text := "", Fields := [], Actions := [] } hne
            split at hres
            · simp only [Option.some.injEq] at hres
              subst hres
              simp at hpost
            · next att2 heq =>
              simp only [Option.some.injEq] at hres
              subst hres
              simp only [List.mem_singleton] at hpost
              subst hpost
              simp only [List.mem_singleton] at ha
              subst ha
              rw [heq] at hA
              exact hA

/-- C3 (as the code behaves): for a `selectTime` action of a user who is not
the owner, whatever the token, `asyncResponse` leaves the backend as it was
(no update is made).  When the original message carries at least one
attachment, the one reply posted is the notice that the user is not
permitted; when it carries none, nothing is posted. -/
theorem asyncResponse_selectTime_not_owner (h : interactionHandler) (rt : Runtime)
    (message : slack.AttachmentActionCallback)
    (action : slack.AttachmentAction) (actions : List slack.AttachmentAction)
    (hact : message.Actions = action :: actions)
    (hname : action.Name = actionSelectTime)
    (hne : message.User.ID ≠ h.ownerSlackID) :
    ∃ result, h.asyncResponse rt message = some result ∧
      result.garoon.events = h.garoonClient.events ∧
      (∀ post ∈ result.posted, ∀ a ∈ post.Attachments,
        a.Title = ":x: You are not permitted." ∧ a.Actions = []) ∧
      (∀ attachment attachments,
        message.OriginalMessage.Attachments = attachment :: attachments →
        result.posted =
          [ { Channel := message.Channel.ID
              Attachments :=
                [ { attachment with
                      Title := ":x: You are not permitted."
                      Text := "", Fields := [], Actions := [] } ] } ]) ∧
      (message.OriginalMessage.Attachments = [] → result.posted = []) := by
  have hn : ¬ actionSelectTime = actionSelectTarget := by decide
  cases hatt : message.OriginalMessage.Attachments with
  | nil =>
    refine ⟨{ garoon := h.garoonClient, posted := [] }, ?_, rfl, ?_, ?_, fun _ => rfl⟩
    · simp only [asyncResponse, hatt]
    · intro post hpost
      simp at hpost
    · intro attachment attachments hh
      exact absurd hh (by simp)
  | cons attachment0 attachments0 =>
    refine ⟨{ garoon := h.garoonClient
              posted := [ { Channel := message.Channel.ID
                            Attachments := [ { attachment0 with
                              Title := ":x: You are not permitted."
                              Text := "", Fields := [], Actions := [] } ] } ] },
      ?_, rfl, ?_, ?_, fun hh => absurd hh (by simp)⟩
    · simp only [asyncResponse, hatt, hact, hname, hn, if_false, if_true, hne, ne_eq,
        not_false_eq_true]
    · intro post hpost a ha
      simp only [List.mem_singleton] at hpost
      subst hpost
      simp only [List.mem_singleton] at ha
      subst ha
      exact ⟨rfl, rfl⟩
    · intro attachment attachments hh
      simp only [List.cons.injEq] at hh
      rw [hh.1]

/-- C9 (as the code behaves): for a `selectTime` action of the owner whose
reschedule fails, the meeting not being found or the update being rejected,
`asyncResponse` posts no reply at all and leaves the backend as it was. -/
theorem asyncResponse_selectTime_failure (h : interactionHandler) (rt : Runtime)
    (message : slack.AttachmentActionCallback)
    (action : slack.AttachmentAction) (actions : List slack.AttachmentAction)
    (selected : slack.AttachmentActionOption) (selections : List slack.AttachmentActionOption)
    (M1 S E R : String) (rest : List String) (err : String)
    (hact : message.Actions = action :: actions)
    (hname : action.Name = actionSelectTime)
    (howner : message.User.ID = h.ownerSlackID)
    (hsel : action.SelectedOptions = selected :: selections)
    (htok : strings.Split selected.Value ',' = M1 :: S :: E :: R :: rest)
    (hfail : h.garoonClient.FindEvent M1 = .error err ∨
      ∃ ev, h.garoonClient.FindEvent M1 = .ok ev ∧
        h.garoonClient.UpdateEvent
          { ev with
              Start := { ev.Start with
                DateTime := rt.ParseOrZero "2006-01-02T15:04:05-07:00" S }
              End := { ev.End with
                DateTime := rt.ParseOrZero "2006-01-02T15:04:05-07:00" E }
              Facilities := [ { ID := R, Code := "", Name := "", FacilityGroup := "" } ] }
          = .error err) :
    ∃ result, h.asyncResponse rt message = some result ∧
      result.posted = [] ∧ result.garoon.events = h.garoonClient.events ∧
      ∃ reported, h.updateEvent rt M1 S E R = .error reported := by
  have hn : ¬ actionSelectTime = actionSelectTarget := by decide
  have hfail : ∃ reported, h.updateEvent rt M1 S E R = .error reported := by
    rcases hfail with hf | ⟨ev, hf, hu⟩
    · exact ⟨"failed to find the event.", by simp only [updateEvent, hf]⟩
    · refine ⟨"failed to update the event.", ?_⟩
      simp only [updateEvent, hf]
      rw [hu]
  obtain ⟨reported, hfail⟩ := hfail
  refine ⟨{ garoon := h.garoonClient, posted := [] }, ?_, rfl, rfl, reported, hfail⟩
  cases hatt : message.OriginalMessage.Attachments with
  | nil => simp only [asyncResponse, hatt]
  | cons attachment0 attachments0 =>
    simp only [asyncResponse, hatt, hact, hname, hn, if_false, if_true, howner, ne_eq,
      not_true_eq_false, hsel, htok, List.getElem?_cons_zero, List.getElem?_cons_succ, hfail]

end interactionHandler

/-! ## The flow on concrete callbacks -/

namespace Example

open interactionHandler

/-- C1 on the example: the owner picks the 10:00 slot in room `2` for `M1`. -/
theorem asyncResponse_selectTime_updates_witness :
    ∃ result, handler.asyncResponse runtime
        (callback owner (chosen actionSelectTime slotToken)) = some result ∧
      result.garoon.FindEvent "M1" = .ok
        { meeting with
            Start := { meeting.Start with DateTime := { sec := 1546822800, nsec := 0, off := 32400 } }
            End := { meeting.End with DateTime := { sec := 1546826400, nsec := 0, off := 32400 } }
            Facilities := [ { ID := "2", Code := "", Name := "", FacilityGroup := "" } ] } ∧
      meeting.ID = "M1" ∧
      result.posted =
        [ { Channel := "C1"
            Attachments :=
              [ { targetMenu with
                    Title := "The schedule has been rescheduled! :white_check_mark:"
                    Text := "", Fields := [], Actions := [] } ] } ] :=
  asyncResponse_selectTime_updates handler runtime
    (callback owner (chosen actionSelectTime slotToken)) targetMenu []
    (chosen actionSelectTime slotToken) [] { Text := "", Value := slotToken } []
    "M1" "2019-01-07T10:00:00+09:00" "2019-01-07T11:00:00+09:00" "2" [] meeting
    { sec := 1546822800, nsec := 0, off := 32400 } { sec := 1546826400, nsec := 0, off := 32400 }
    rfl rfl rfl rfl rfl (by decide) rfl (by decide) (by decide) rfl

/-- C2 on the example: a guest selects the Sunday meeting, three slots are
found, the title is `3 schedules found.` and there is no control. -/
theorem setupAttachment_not_owner_witness :
    guest.ID ≠ handler.ownerSlackID ∧
      (handler.setupAttachment runtime guest.ID meeting slack.Attachment.empty).1.Actions = [] ∧
      (handler.setupAttachment runtime guest.ID meeting slack.Attachment.empty).1.Title
        = "3 schedules found." ∧
      (handler.asyncResponse runtime (callback guest (chosen actionSelectTarget "M1,Weekly"))).map
        (fun result => result.posted.map (fun post => post.Attachments.map
          (fun a => (a.Title, a.Actions)))) = some [[("3 schedules found.", [])]] :=
  ⟨by decide,
    (setupAttachment_not_owner handler runtime guest.ID meeting slack.Attachment.empty
      (by decide)).1,
    ((setupAttachment_not_owner handler runtime guest.ID meeting slack.Attachment.empty
      (by decide)).2.1
        [ slot { sec := 1546822800, nsec := 0, off := 32400 } (room "1" "A"),
          slot { sec := 1546822800, nsec := 0, off := 32400 } (room "2" "B"),
          slot { sec := 1546826400, nsec := 0, off := 32400 } (room "1" "A") ]
        rfl rfl (by decide) rfl).2.1 (by decide),
    rfl⟩

/-- C3 (as the code behaves) on the example: a guest sends the token of a
slot from the message that holds the menu. -/
theorem asyncResponse_selectTime_not_owner_witness :
    guest.ID ≠ handler.ownerSlackID ∧
      ∃ result, handler.asyncResponse runtime
          (callback guest (chosen actionSelectTime slotToken)) = some result ∧
        result.garoon.events = [meeting, mondayMeeting] ∧
        (∀ post ∈ result.posted, ∀ a ∈ post.Attachments,
          a.Title = ":x: You are not permitted." ∧ a.Actions = []) ∧
        (∀ attachment attachments,
          [targetMenu] = attachment :: attachments →
          result.posted =
            [ { Channel := "C1"
                Attachments :=
                  [ { attachment with
                        Title := ":x: You are not permitted."
                        Text := "", Fields := [], Actions := [] } ] } ]) ∧
        ([targetMenu] = [] → result.posted = []) :=
  ⟨by decide,
    asyncResponse_selectTime_not_owner handler runtime
      (callback guest (chosen actionSelectTime slotToken))
      (chosen actionSelectTime slotToken) [] rfl rfl (by decide)⟩

/-- C3 at a failing input: a guest sends the token of a slot in an authentic
callback whose original message carries no attachment.  `ServeHTTP`
acknowledges with status 200 and starts `asyncResponse`, which returns at its
first guard: no reply is posted, so the notice is not posted either.  The
backend is as it was. -/
theorem selectTime_not_owner_bare_posts_nothing :
    (bareCallback guest (chosen actionSelectTime slotToken)).User.ID ≠ handler.ownerSlackID ∧
      (bareCallback guest (chosen actionSelectTime slotToken)).Actions.map
        (fun a => a.Name) = [actionSelectTime] ∧
      (bareCallback guest (chosen actionSelectTime slotToken)).OriginalMessage.Attachments
        = [] ∧
      (handler.asyncResponse runtime
        (bareCallback guest (chosen actionSelectTime slotToken))).map
          (fun result => (result.posted, result.garoon.events))
        = some ([], [meeting, mondayMeeting]) ∧
      (handler.interaction runtime
        (request (bareCallback guest (chosen actionSelectTime slotToken)))).map
          (fun r => (r.1.status, r.2.posted)) = some (some 200, []) :=
  ⟨by decide, rfl, rfl, rfl, rfl⟩

/-- C4 on the example: the three slots of the Monday window, answered out of
order, come back sorted by start and room code. -/
theorem searchAvailableTimes_sorted_witness :
    handler.searchAvailableTimes runtime meeting = .ok
        [ slot { sec := 1546822800, nsec := 0, off := 32400 } (room "1" "A"),
          slot { sec := 1546822800, nsec := 0, off := 32400 } (room "2" "B"),
          slot { sec := 1546826400, nsec := 0, off := 32400 } (room "1" "A") ] ∧
      ∃ slots found, handler.searchAvailableTimes runtime meeting = .ok slots ∧
        collectAvailableTimes handler.garoonClient
          [query (window 7), query (window 8), query (window 9), query (window 10),
            query (window 11)] [] = .ok found ∧
        slots.Perm found ∧
        ∀ (k : Nat) (hk : k + 1 < slots.length),
          (slots.get ⟨k, by omega⟩).Start.DateTime.Before
              (slots.get ⟨k + 1, hk⟩).Start.DateTime ∨
            ((slots.get ⟨k, by omega⟩).Start.DateTime.Equal
                (slots.get ⟨k + 1, hk⟩).Start.DateTime ∧
              strings.LessEq (slots.get ⟨k, by omega⟩).Facility.Code
                (slots.get ⟨k + 1, hk⟩).Facility.Code) :=
  ⟨rfl,
    searchAvailableTimes_sorted handler runtime meeting rooms
      [query (window 7), query (window 8), query (window 9), query (window 10),
        query (window 11)] rfl rfl
      (by
        intro param _
        simp only [garoon.Client.SearchAvailableTimes, handler, backend]
        split
        · split_ifs <;> exact ⟨_, rfl⟩
        · exact ⟨_, rfl⟩)⟩

/-- C5 on the example of the test: the meeting ends on Sunday 2019-01-06 at
11:00, it is 10:00 on that day, and the first of the five windows is on Monday
2019-01-07. -/
theorem buildTimeRanges_no_weekend_witness :
    meeting.End.DateTime.Weekday = 0 ∧
      handler.buildTimeRanges runtime meeting
        = .ok [window 7, window 8, window 9, window 10, window 11] ∧
      ((window 7).Start.Year, (window 7).Start.Month, (window 7).Start.Day,
        (window 7).Start.Weekday) = (2019, 1, 7, 1) ∧
      ∃ periods, handler.buildTimeRanges runtime meeting = .ok periods ∧
        (∀ p ∈ periods, p.Start.Weekday ≠ 0 ∧ p.Start.Weekday ≠ 6 ∧
          p.End.Weekday ≠ 0 ∧ p.End.Weekday ≠ 6) ∧
        (meeting.End.DateTime.Weekday = 0 → ∃ p rest, periods = p :: rest ∧
          p.Start.days = meeting.End.DateTime.days + 1 ∧ p.Start.Weekday = 1 ∧
          p.Start.Hour = 10) :=
  ⟨by decide, rfl, by decide, buildTimeRanges_no_weekend handler runtime meeting⟩

/-- C6 on the example: the meeting ends on Monday 2019-01-07 and it is 15:00,
so the first window is that Monday from 15:00 to 19:00. -/
theorem buildTimeRanges_same_day_witness :
    (mondayMeeting.End.DateTime.Weekday ≠ 0 ∧ mondayMeeting.End.DateTime.Weekday ≠ 6) ∧
      afternoon.Now.Hour = 15 ∧
      handler.buildTimeRanges afternoon mondayMeeting = .ok
        [ { Start := time.Date 2019 1 7 15 0 0 0 32400, End := time.Date 2019 1 7 19 0 0 0 32400 },
          window 8, window 9, window 10, window 11, window 14 ] ∧
      handler.buildTimeRanges evening mondayMeeting = .ok
        [ window 8, window 9, window 10, window 11, window 14 ] ∧
      ∃ periods, handler.buildTimeRanges afternoon mondayMeeting = .ok periods ∧
        (afternoon.Now.Hour ≥ 19 →
          ∀ p ∈ periods, p.Start.days ≠ mondayMeeting.End.DateTime.days) ∧
        (10 < afternoon.Now.Hour ∧ afternoon.Now.Hour < 19 → ∃ p rest, periods = p :: rest ∧
          p.Start.days = mondayMeeting.End.DateTime.days ∧ p.Start.Hour = afternoon.Now.Hour ∧
          p.Start.Minute = 0 ∧ p.Start.Second = 0 ∧ p.Start.nsec = 0 ∧
          p.End.days = mondayMeeting.End.DateTime.days ∧ p.End.Hour = 19 ∧
          p.End.Minute = 0 ∧ p.End.Second = 0 ∧ p.End.nsec = 0 ∧
          ∀ q ∈ rest, q.Start.days ≠ mondayMeeting.End.DateTime.days) ∧
        (afternoon.Now.Hour ≤ 10 → ∃ p rest, periods = p :: rest ∧
          p.Start.days = mondayMeeting.End.DateTime.days ∧ p.Start.Hour = 10 ∧
          p.Start.Minute = 0 ∧ p.Start.Second = 0 ∧ p.Start.nsec = 0 ∧
          p.End.days = mondayMeeting.End.DateTime.days ∧ p.End.Hour = 19 ∧
          p.End.Minute = 0 ∧ p.End.Second = 0 ∧ p.End.nsec = 0 ∧
          ∀ q ∈ rest, q.Start.days ≠ mondayMeeting.End.DateTime.days) ∧
        (∀ i : Nat, 1 ≤ i → ∀ p, timeRangeAt afternoon mondayMeeting.End.DateTime i = some p →
          p.Start.days = mondayMeeting.End.DateTime.days + i ∧ p.Start.Hour = 10 ∧
          p.Start.Minute = 0 ∧ p.Start.Second = 0 ∧ p.Start.nsec = 0) :=
  ⟨by decide, by decide, rfl, rfl,
    buildTimeRanges_same_day handler afternoon mondayMeeting (by decide)⟩

/-- C7 on the example: at 19:00 on the Monday the meeting ends there is no
window on that day, and every window starts before it ends. -/
theorem buildTimeRanges_start_before_end_witness :
    evening.Now.Hour = 19 ∧
      ∃ periods, handler.buildTimeRanges evening mondayMeeting = .ok periods ∧
        ∀ p ∈ periods, p.Start.Before p.End ∧ ¬ p.Start.After p.End ∧
          ¬ p.Start.Equal p.End :=
  ⟨by decide, buildTimeRanges_start_before_end handler evening mondayMeeting⟩

/-- C8 at a failing input: the menu built for the meeting `M1` with subject
`Weekly` carries the token `M1` (and `M2` for the other meeting), without any
subject; splitting it at the first comma gives the single piece `M1`, there is
no element 1, and `ServeHTTP` panics on the callback that selects it.  A token
`M1,Weekly` would be acknowledged. -/
theorem selectTarget_token_lacks_subject :
    (meeting.ID, meeting.Subject) = ("M1", "Weekly") ∧
      targetMenu.Actions.map (fun a => (a.Name, a.Options.map (fun o => o.Value)))
        = [("selectTarget", ["M1", "M2"]), ("cancel", [])] ∧
      strings.SplitN "M1" ',' 2 = ["M1"] ∧
      (strings.SplitN "M1" ',' 2)[1]? = none ∧
      handler.ServeHTTP runtime (request (callback owner (chosen actionSelectTarget "M1")))
        = none ∧
      strings.SplitN "M1,Weekly" ',' 2 = ["M1", "Weekly"] ∧
      (handler.ServeHTTP runtime
        (request (callback owner (chosen actionSelectTarget "M1,Weekly")))).map
          (fun served => served.status) = some (some 200) :=
  ⟨rfl, rfl, rfl, rfl, rfl, rfl, rfl⟩

/-- C9 at two failing inputs: the owner picks a slot for a meeting the backend
does not hold, or the backend rejects the update; the reschedule fails and
`asyncResponse` posts nothing. -/
theorem asyncResponse_failure_posts_nothing :
    handler.updateEvent runtime "M9" "2019-01-07T10:00:00+09:00" "2019-01-07T11:00:00+09:00" "2"
        = .error "failed to find the event." ∧
      (handler.asyncResponse runtime (callback owner (chosen actionSelectTime strayToken))).map
        (fun result => result.posted) = some [] ∧
      (rejectingHandler.updateEvent runtime "M1" "2019-01-07T10:00:00+09:00"
        "2019-01-07T11:00:00+09:00" "2").toOption.isNone = true ∧
      (rejectingHandler.asyncResponse runtime
        (callback owner (chosen actionSelectTime slotToken))).map
        (fun result => result.posted) = some [] :=
  ⟨rfl, rfl, rfl, rfl⟩

/-- C9 (as the code behaves) on the example of the missing meeting. -/
theorem asyncResponse_selectTime_failure_witness :
    handler.garoonClient.FindEvent "M9" = .error "event not found" ∧
      ∃ result, handler.asyncResponse runtime
          (callback owner (chosen actionSelectTime strayToken)) = some result ∧
        result.posted = [] ∧ result.garoon.events = [meeting, mondayMeeting] ∧
        ∃ reported, handler.updateEvent runtime "M9" "2019-01-07T10:00:00+09:00"
          "2019-01-07T11:00:00+09:00" "2" = .error reported :=
  ⟨rfl,
    asyncResponse_selectTime_failure handler runtime
      (callback owner (chosen actionSelectTime strayToken))
      (chosen actionSelectTime strayToken) [] { Text := "", Value := strayToken } []
      "M9" "2019-01-07T10:00:00+09:00" "2019-01-07T11:00:00+09:00" "2" []
      "event not found" rfl rfl rfl rfl (by decide) (Or.inl rfl)⟩

/-- C10 at a failing input: an authentic `cancel` callback of the owner.
`ServeHTTP` returns without writing anything and without starting
`asyncResponse`, so nothing is posted; `asyncResponse`, had it been started
with the same callback, would have posted `@alice canceled.`. -/
theorem cancel_posts_nothing :
    (request (callback owner (chosen actionCancel ""))).Method = "POST" ∧
      (callback owner (chosen actionCancel "")).Token = handler.verificationToken ∧
      handler.ServeHTTP runtime (request (callback owner (chosen actionCancel "")))
        = some { status := none, body := none, async := none } ∧
      (handler.interaction runtime (request (callback owner (chosen actionCancel "")))).map
        (fun r => r.2.posted) = some [] ∧
      (handler.asyncResponse runtime (callback owner (chosen actionCancel ""))).map
        (fun result => result.posted) = some
          [ { Channel := "C1"
              Attachments :=
                [ { targetMenu with
                      Title := "@alice canceled.", Text := "", Fields := [],
                      Actions := [] } ] } ] :=
  ⟨rfl, rfl, rfl, rfl, rfl⟩

end Example

end Rescheduler
